import Mathlib

set_option linter.unusedVariables false

/-!
Shallow embedding of the DairyDrop payment reconciliation core and of the
review rating aggregation, translated from the JavaScript sources:
the payment controller (createPaymentIntent / getPaymentStatus / webhookHandler),
the routed stripe controller (webhookHandler / testConnectivity), the Order and
Product mongoose schemas, and the Review schema with its rating hooks.

Monetary amounts are rationals; Math.round of JavaScript agrees with
Mathlib round on the values that occur here (floor of x + 1/2).
Identifiers are naturals, Date values are integers, the payment gateway is an
injected deterministic oracle (gateway failure paths play no role in the
claims under study).  Every stateful controller is a pure function from the
database state and the request to the new state plus the HTTP response and
the list of outbound gateway calls.
-/

namespace DairyDrop

/-- Payment status values used across the controllers (the spec enumeration). -/
inductive PaymentStatus
  | pending
  | processing
  | paid
  | failed
  | refunded
deriving DecidableEq, Repr

/-- Order fulfillment status values from the order schema. -/
inductive OrderStatus
  | pending
  | confirmed
  | packed
  | outForDelivery
  | delivered
  | cancelled
deriving DecidableEq, Repr

/-- Card details stored on the order by the succeeded webhook branch. -/
structure PaymentDetails where
  method : String
  last4 : String
  brand : String
deriving DecidableEq, Repr

/-- An order record.  Default field values follow the order schema defaults
(paymentMethod cod, paymentStatus pending, orderStatus pending) and the
absence of payment fields on a fresh document. -/
structure Order where
  id : Nat
  user : Nat
  orderNumber : String
  totalAmount : ℚ
  deliveryDate : Int
  paymentMethod : String := "cod"
  paymentStatus : PaymentStatus := PaymentStatus.pending
  orderStatus : OrderStatus := OrderStatus.pending
  paymentIntentId : Option String := none
  stripeCustomerId : Option String := none
  isPaid : Bool := false
  paidAt : Option Int := none
  paymentDetails : Option PaymentDetails := none
deriving DecidableEq, Repr

/-- A user record with the cached gateway customer id. -/
structure User where
  id : Nat
  email : String
  name : String
  phone : String
  stripeCustomerId : Option String := none
deriving DecidableEq, Repr

/-- Order.findById. -/
def findById (orders : List Order) (oid : Nat) : Option Order :=
  orders.find? (fun o => decide (o.id = oid))

/-- Order.findOne on the paymentIntentId field. -/
def findByPaymentIntentId (orders : List Order) (pid : String) : Option Order :=
  orders.find? (fun o => decide (o.paymentIntentId = some pid))

/-- order.save: overwrite the stored document that carries this id. -/
def saveOrder (orders : List Order) (o : Order) : List Order :=
  orders.map (fun x => if x.id = o.id then o else x)

/-- User.findById. -/
def findUser (users : List User) (uid : Nat) : Option User :=
  users.find? (fun u => decide (u.id = uid))

/-- user.save. -/
def saveUser (users : List User) (u : User) : List User :=
  users.map (fun x => if x.id = u.id then u else x)

/-- The payment_intent object carried by a webhook event. -/
structure PaymentIntentObj where
  id : String
  metadataOrderId : Option Nat
  paymentMethod : Option String
deriving DecidableEq, Repr

/-- The charge object carried by a charge.refunded event. -/
structure ChargeObj where
  paymentIntent : Option String
deriving DecidableEq, Repr

/-- A verified webhook event, after signature checking succeeded. -/
inductive StripeEvent
  | paymentIntentSucceeded (pi : PaymentIntentObj)
  | paymentIntentPaymentFailed (pi : PaymentIntentObj)
  | paymentIntentCanceled (pi : PaymentIntentObj)
  | chargeRefunded (charge : ChargeObj)
  | otherEvent (eventType : String)
deriving DecidableEq, Repr

/-- Gateway answer to stripe.paymentMethods.retrieve. -/
structure PaymentMethodObj where
  pmType : String
  cardLast4 : Option String
  cardBrand : Option String
deriving DecidableEq, Repr

/-- Result of a webhook invocation: the order table after the handler ran,
the HTTP status and whether the received acknowledgement body was sent. -/
structure WebhookResult where
  orders : List Order
  status : Nat
  received : Bool
deriving DecidableEq, Repr

/-- Resolution used by the payment controller handler for every
payment_intent event and by the routed handler for failed and canceled
events: first the order whose paymentIntentId equals the event's payment
intent id, on a miss the order id embedded in the event metadata. -/
def resolveByPidThenMeta (orders : List Order) (pi : PaymentIntentObj) : Option Order :=
  match findByPaymentIntentId orders pi.id with
  | some o => some o
  | none =>
    match pi.metadataOrderId with
    | some oid => findById orders oid
    | none => none

/-- Resolution used by the routed handler for succeeded events only:
metadata order id first, the paymentIntentId lookup as fallback. -/
def resolveByMetaThenPid (orders : List Order) (pi : PaymentIntentObj) : Option Order :=
  match pi.metadataOrderId with
  | some oid =>
    match findById orders oid with
    | some o => some o
    | none => findByPaymentIntentId orders pi.id
  | none => findByPaymentIntentId orders pi.id

namespace Legacy

/-- Field updates of the succeeded branch of the payment controller handler:
isPaid, paidAt, paymentStatus paid, orderStatus confirmed, and the payment
details fetched from the gateway when the event names a payment method. -/
def applySucceeded (pm : String → PaymentMethodObj) (now : Int)
    (o : Order) (pi : PaymentIntentObj) : Order :=
  let base := { o with
    isPaid := true
    paidAt := some now
    paymentStatus := PaymentStatus.paid
    orderStatus := OrderStatus.confirmed }
  match pi.paymentMethod with
  | some pmId =>
    let m := pm pmId
    { base with paymentDetails := some ⟨m.pmType, m.cardLast4.getD "", m.cardBrand.getD ""⟩ }
  | none => base

/-- Webhook handler of the payment controller file.  Every branch resolves
the order, applies its field updates unconditionally when an order was
found, saves, and acknowledges with 200 and a received body. -/
def webhookHandler (pm : String → PaymentMethodObj) (now : Int)
    (orders : List Order) (event : StripeEvent) : WebhookResult :=
  match event with
  | StripeEvent.paymentIntentSucceeded pi =>
    match resolveByPidThenMeta orders pi with
    | some o => ⟨saveOrder orders (applySucceeded pm now o pi), 200, true⟩
    | none => ⟨orders, 200, true⟩
  | StripeEvent.paymentIntentPaymentFailed pi =>
    match resolveByPidThenMeta orders pi with
    | some o =>
      ⟨saveOrder orders { o with paymentStatus := PaymentStatus.failed, paymentMethod := "card" },
        200, true⟩
    | none => ⟨orders, 200, true⟩
  | StripeEvent.paymentIntentCanceled pi =>
    match resolveByPidThenMeta orders pi with
    | some o => ⟨saveOrder orders { o with paymentStatus := PaymentStatus.failed }, 200, true⟩
    | none => ⟨orders, 200, true⟩
  | StripeEvent.chargeRefunded charge =>
    match charge.paymentIntent with
    | some pid =>
      match findByPaymentIntentId orders pid with
      | some o => ⟨saveOrder orders { o with paymentStatus := PaymentStatus.refunded }, 200, true⟩
      | none => ⟨orders, 200, true⟩
    | none => ⟨orders, 200, true⟩
  | StripeEvent.otherEvent _ => ⟨orders, 200, true⟩

end Legacy

namespace Routed

/-- Webhook handler of the routed stripe controller.  The succeeded branch
resolves metadata first and additionally rewrites paymentIntentId; the
failed branch clears isPaid; there is no charge.refunded branch. -/
def webhookHandler (now : Int) (orders : List Order) (event : StripeEvent) : WebhookResult :=
  match event with
  | StripeEvent.paymentIntentSucceeded pi =>
    match resolveByMetaThenPid orders pi with
    | some o =>
      ⟨saveOrder orders { o with
          isPaid := true
          paidAt := some now
          paymentStatus := PaymentStatus.paid
          paymentIntentId := some pi.id
          orderStatus := OrderStatus.confirmed },
        200, true⟩
    | none => ⟨orders, 200, true⟩
  | StripeEvent.paymentIntentPaymentFailed pi =>
    match resolveByPidThenMeta orders pi with
    | some o =>
      ⟨saveOrder orders { o with isPaid := false, paymentStatus := PaymentStatus.failed },
        200, true⟩
    | none => ⟨orders, 200, true⟩
  | StripeEvent.paymentIntentCanceled pi =>
    match resolveByPidThenMeta orders pi with
    | some o => ⟨saveOrder orders { o with paymentStatus := PaymentStatus.failed }, 200, true⟩
    | none => ⟨orders, 200, true⟩
  | StripeEvent.chargeRefunded _ => ⟨orders, 200, true⟩
  | StripeEvent.otherEvent _ => ⟨orders, 200, true⟩

end Routed

/-- Minor unit conversion used when charging: Math.round of the major amount
times one hundred. -/
def toMinorUnits (amount : ℚ) : ℤ :=
  round (amount * 100)

/-- Inverse conversion used by the status read path: the gateway amount
divided by one hundred. -/
def fromMinorUnits (n : ℤ) : ℚ :=
  (n : ℚ) / 100

/-- Environment of the orchestrator: the configured currency and publishable
key, and the identifiers the gateway hands out for freshly created objects. -/
structure StripeEnv where
  currencyEnv : Option String
  publishableKey : Option String
  freshCustomerId : String
  freshPaymentIntentId : String
  freshClientSecret : String
deriving DecidableEq, Repr

/-- Outbound calls made against the payment gateway. -/
inductive GatewayCall
  | createCustomer (email : String) (name : String) (phone : String) (userId : Nat)
  | createPaymentIntent (amountMinor : ℤ) (currency : String) (customer : String)
      (metaOrderId : Nat) (metaUserId : Nat) (metaOrderNumber : String)
deriving DecidableEq, Repr

/-- Response body of the payment creation endpoint. -/
inductive PayResponse
  | ok (clientSecret : String) (paymentIntentId : String) (amount : ℚ) (currency : String)
  | err (status : Nat) (message : String)
deriving DecidableEq, Repr

/-- Database state touched by the orchestrator. -/
structure PayState where
  orders : List Order
  users : List User
deriving DecidableEq, Repr

/-- Result of a payment creation request: response, database after the
request, and the gateway calls issued. -/
structure PayResult where
  resp : PayResponse
  state : PayState
  calls : List GatewayCall
deriving DecidableEq, Repr

/-- Customer resolution step of the orchestrator: reuse the cached gateway
customer id, otherwise create a customer at the gateway and persist the new
id on the user record. -/
def resolveCustomer (env : StripeEnv) (users : List User) (u : User) :
    String × List User × List GatewayCall :=
  match u.stripeCustomerId with
  | some c => (c, users, [])
  | none =>
    (env.freshCustomerId,
      saveUser users { u with stripeCustomerId := some env.freshCustomerId },
      [GatewayCall.createCustomer u.email u.name u.phone u.id])

/-- The payment creation controller.  Preconditions in source order: order
found, owned by the requester, not already paid, not cancelled, delivery
date not passed; then customer resolution, payment intent creation, and the
order update to processing with the new payment intent id. -/
def createPaymentIntent (env : StripeEnv) (now : Int) (st : PayState)
    (orderId : Nat) (userId : Nat) : PayResult :=
  match findById st.orders orderId with
  | none => ⟨PayResponse.err 404 "Order not found", st, []⟩
  | some o =>
    if o.user ≠ userId then
      ⟨PayResponse.err 403 "Not authorized to pay for this order", st, []⟩
    else if o.paymentStatus = PaymentStatus.paid ∨ o.isPaid = true then
      ⟨PayResponse.err 400 "Order already paid", st, []⟩
    else if o.orderStatus = OrderStatus.cancelled then
      ⟨PayResponse.err 400 "Cannot pay for cancelled order", st, []⟩
    else if o.deliveryDate < now then
      ⟨PayResponse.err 400 "Delivery date has passed. Please create a new order.", st, []⟩
    else
      match findUser st.users userId with
      | none => ⟨PayResponse.err 500 "Server error while creating payment", st, []⟩
      | some u =>
        let cu := resolveCustomer env st.users u
        let currency := env.currencyEnv.getD "usd"
        let piCall := GatewayCall.createPaymentIntent (toMinorUnits o.totalAmount)
          currency cu.1 o.id o.user o.orderNumber
        let o' := { o with
          paymentIntentId := some env.freshPaymentIntentId
          stripeCustomerId := some cu.1
          paymentStatus := PaymentStatus.processing
          paymentMethod := "card" }
        ⟨PayResponse.ok env.freshClientSecret env.freshPaymentIntentId o.totalAmount currency,
          ⟨saveOrder st.orders o', cu.2.1⟩,
          cu.2.2 ++ [piCall]⟩

/-- Gateway snapshot of a payment intent, as returned by retrieve. -/
structure PaymentIntentSnapshot where
  id : String
  piStatus : String
  amount : ℤ
  currency : String
  clientSecret : String
  created : Int
deriving DecidableEq, Repr

/-- Response of the payment status endpoint. -/
inductive StatusResponse
  | notFound
  | notAuthorized
  | localOnly (paymentStatus : PaymentStatus) (isPaid : Bool)
  | full (gatewayStatus : String) (orderPaymentStatus : PaymentStatus) (isPaid : Bool)
      (amount : ℚ) (currency : String) (piId : String)
  | serverError
deriving DecidableEq, Repr

/-- The payment status controller: owner or admin only; local view when no
payment intent is attached, otherwise the live gateway snapshot next to the
local fields, with the amount converted back to major units. -/
def getPaymentStatus (retrieve : String → Option PaymentIntentSnapshot)
    (orders : List Order) (oid : Nat) (uid : Nat) (role : String) : StatusResponse :=
  match findById orders oid with
  | none => StatusResponse.notFound
  | some o =>
    if o.user ≠ uid ∧ role ≠ "admin" then StatusResponse.notAuthorized
    else
      match o.paymentIntentId with
      | none => StatusResponse.localOnly o.paymentStatus o.isPaid
      | some pid =>
        match retrieve pid with
        | none => StatusResponse.serverError
        | some snap =>
          StatusResponse.full snap.piStatus o.paymentStatus o.isPaid
            (fromMinorUnits snap.amount) snap.currency snap.id

/-- A review document. -/
structure Review where
  id : Nat
  user : Nat
  product : Nat
  order : Nat
  rating : Nat
  isApproved : Bool := true
deriving DecidableEq, Repr

/-- The stored product rating aggregate. -/
structure Rating where
  average : ℚ
  count : Nat
deriving DecidableEq, Repr

/-- A product record, reduced to the rating aggregate under study. -/
structure Product where
  id : Nat
  rating : Rating := ⟨0, 0⟩
deriving DecidableEq, Repr

/-- Review and product tables. -/
structure ReviewState where
  reviews : List Review
  products : List Product
deriving DecidableEq, Repr

/-- The aggregation match stage: reviews of this product that are approved. -/
def approvedFor (reviews : List Review) (productId : Nat) : List Review :=
  reviews.filter (fun r => decide (r.product = productId) && r.isApproved)

/-- calculateProductRating: average of the approved ratings rounded to one
decimal place together with their count, zeroes when none exist. -/
def calculateProductRating (reviews : List Review) (productId : Nat) : Rating :=
  let matched := approvedFor reviews productId
  if matched.length = 0 then ⟨0, 0⟩
  else
    ⟨((round (((matched.map (fun r => (r.rating : ℚ))).sum / matched.length) * 10) : ℤ) : ℚ) / 10,
      matched.length⟩

/-- Product.findByIdAndUpdate on the rating field. -/
def updateProductRating (products : List Product) (productId : Nat) (rating : Rating) :
    List Product :=
  products.map (fun p => if p.id = productId then { p with rating := rating } else p)

/-- The post hook shared by save, findOneAndUpdate and findOneAndDelete on
the review schema: recompute and store the product rating aggregate. -/
def ratingHook (st : ReviewState) (productId : Nat) : ReviewState :=
  { st with products :=
      updateProductRating st.products productId (calculateProductRating st.reviews productId) }

/-- Review.create followed by the post save hook. -/
def reviewCreate (st : ReviewState) (r : Review) : ReviewState :=
  ratingHook { st with reviews := st.reviews ++ [r] } r.product

/-- Overwrite the isApproved flag of the first review carrying this id. -/
def setApprovalFirst : List Review → Nat → Bool → List Review
  | [], _, _ => []
  | r :: rs, rid, b =>
    if r.id = rid then { r with isApproved := b } :: rs
    else r :: setApprovalFirst rs rid b

/-- Review.findByIdAndUpdate of isApproved followed by the post
findOneAndUpdate hook; a miss leaves the state alone. -/
def reviewSetApproval (st : ReviewState) (rid : Nat) (b : Bool) : ReviewState :=
  match st.reviews.find? (fun r => decide (r.id = rid)) with
  | none => st
  | some r0 => ratingHook { st with reviews := setApprovalFirst st.reviews rid b } r0.product

/-- Review.findByIdAndDelete followed by the post findOneAndDelete hook;
a miss leaves the state alone. -/
def reviewDelete (st : ReviewState) (rid : Nat) : ReviewState :=
  match st.reviews.find? (fun r => decide (r.id = rid)) with
  | none => st
  | some r0 =>
    ratingHook { st with reviews := st.reviews.eraseP (fun r => decide (r.id = rid)) } r0.product

/-- The paid flag invariant of the order data model. -/
def paidInv (o : Order) : Prop :=
  o.isPaid = true ↔ o.paymentStatus = PaymentStatus.paid

/-- Rating aggregation invariant: every stored product rating agrees with a
recomputation over the current review table. -/
def ratingInv (st : ReviewState) : Prop :=
  ∀ p ∈ st.products, p.rating = calculateProductRating st.reviews p.id

/-- An order freshly created through the order schema: only the required
fields supplied, everything else at its schema default. -/
def newOrder (i : Nat) (u : Nat) (num : String) (amount : ℚ) (ddate : Int) : Order :=
  { id := i, user := u, orderNumber := num, totalAmount := amount, deliveryDate := ddate }

/-- Payment method oracle used by concrete test inputs. -/
def pmDefault : String → PaymentMethodObj :=
  fun _ => ⟨"card", none, none⟩

/-- A concrete paid order attached to payment intent pi_1. -/
def cexPaidOrder : Order :=
  { id := 1, user := 1, orderNumber := "DD1", totalAmount := 100, deliveryDate := 10,
    paymentMethod := "card", paymentStatus := PaymentStatus.paid,
    orderStatus := OrderStatus.confirmed, paymentIntentId := some "pi_1",
    stripeCustomerId := some "cus_1", isPaid := true, paidAt := some 0 }

/-- A concrete order in processing that was never paid, attached to pi_1. -/
def cexProcessingOrder : Order :=
  { id := 1, user := 1, orderNumber := "DD1", totalAmount := 100, deliveryDate := 10,
    paymentMethod := "card", paymentStatus := PaymentStatus.processing,
    orderStatus := OrderStatus.pending, paymentIntentId := some "pi_1",
    stripeCustomerId := some "cus_1" }

/-- A concrete refunded and delivered order attached to pi_1. -/
def cexRefundedDeliveredOrder : Order :=
  { id := 1, user := 1, orderNumber := "DD1", totalAmount := 100, deliveryDate := 10,
    paymentMethod := "card", paymentStatus := PaymentStatus.refunded,
    orderStatus := OrderStatus.delivered, paymentIntentId := some "pi_1",
    stripeCustomerId := some "cus_1", isPaid := true, paidAt := some 0 }

/-- A second concrete order, no payment intent attached. -/
def cexOrderY : Order :=
  { id := 2, user := 1, orderNumber := "DD2", totalAmount := 50, deliveryDate := 10 }

/-- A concrete orchestrator environment. -/
def envC : StripeEnv :=
  ⟨some "inr", some "pk_test", "cus_9", "pi_9", "sec_9"⟩

/-- A concrete gateway snapshot of payment intent pi_1. -/
def snapC : PaymentIntentSnapshot :=
  ⟨"pi_1", "succeeded", 1999, "usd", "sec_1", 0⟩

/-- A concrete user without a cached gateway customer id. -/
def cexUser : User :=
  { id := 1, email := "a@b.c", name := "A", phone := "123" }

instance (o : Order) : Decidable (paidInv o) :=
  inferInstanceAs (Decidable (o.isPaid = true ↔ o.paymentStatus = PaymentStatus.paid))

instance (st : ReviewState) : Decidable (ratingInv st) :=
  inferInstanceAs (Decidable (∀ p ∈ st.products, p.rating = calculateProductRating st.reviews p.id))

/-! Helper lemmas about the store primitives. -/

theorem pid_of_findByPaymentIntentId {orders : List Order} {pid : String} {o : Order}
    (h : findByPaymentIntentId orders pid = some o) : o.paymentIntentId = some pid := by
  unfold findByPaymentIntentId at h
  simpa using List.find?_some h

theorem id_of_findById {orders : List Order} {oid : Nat} {o : Order}
    (h : findById orders oid = some o) : o.id = oid := by
  unfold findById at h
  simpa using List.find?_some h

theorem mem_saveOrder {orders : List Order} {o x : Order} (hx : x ∈ saveOrder orders o) :
    x = o ∨ x ∈ orders := by
  unfold saveOrder at hx
  rcases List.mem_map.mp hx with ⟨y, hy, he⟩
  by_cases h : y.id = o.id
  · rw [if_pos h] at he
    exact Or.inl he.symm
  · rw [if_neg h] at he
    exact Or.inr (he ▸ hy)

theorem find?_saveOrder_some {p : Order → Bool} {orders : List Order} {o o' : Order}
    (h : orders.find? p = some o) (hid : o'.id = o.id) (hp : p o' = true) :
    (saveOrder orders o').find? p = some o' := by
  induction orders with
  | nil => simp at h
  | cons x xs ih =>
    by_cases hx : p x = true
    · rw [List.find?_cons_of_pos _ hx] at h
      injection h with h
      subst h
      have hxid : x.id = o'.id := hid.symm
      simp only [saveOrder, List.map_cons, if_pos hxid]
      exact List.find?_cons_of_pos _ hp
    · have hx' : ¬ p x := by simpa using hx
      rw [List.find?_cons_of_neg _ hx'] at h
      simp only [saveOrder, List.map_cons]
      by_cases hxid : x.id = o'.id
      · rw [if_pos hxid]
        exact List.find?_cons_of_pos _ hp
      · rw [if_neg hxid]
        rw [List.find?_cons_of_neg _ hx']
        exact ih h

theorem find?_saveOrder_none {p : Order → Bool} {orders : List Order} {o' : Order}
    (h : orders.find? p = none) (hp : p o' = false) :
    (saveOrder orders o').find? p = none := by
  rw [List.find?_eq_none] at h ⊢
  intro x hx
  rcases mem_saveOrder hx with rfl | hmem
  · simp [hp]
  · exact h x hmem

theorem findById_saveOrder {orders : List Order} {oid : Nat} {o o' : Order}
    (h : findById orders oid = some o) (hid : o'.id = o.id) :
    findById (saveOrder orders o') oid = some o' := by
  have hoid : o.id = oid := id_of_findById h
  exact find?_saveOrder_some h hid (by simp [hid, hoid])

theorem findByPaymentIntentId_saveOrder {orders : List Order} {pid : String} {o o' : Order}
    (h : findByPaymentIntentId orders pid = some o) (hid : o'.id = o.id)
    (hpid : o'.paymentIntentId = some pid) :
    findByPaymentIntentId (saveOrder orders o') pid = some o' :=
  find?_saveOrder_some h hid (by simp [hpid])

theorem resolveByPidThenMeta_saveOrder {orders : List Order} {pi : PaymentIntentObj}
    {o o' : Order} (h : resolveByPidThenMeta orders pi = some o) (hid : o'.id = o.id)
    (hpid : o'.paymentIntentId = o.paymentIntentId) :
    resolveByPidThenMeta (saveOrder orders o') pi = some o' := by
  unfold resolveByPidThenMeta at h ⊢
  cases hf : findByPaymentIntentId orders pi.id with
  | some w =>
    simp only [hf] at h
    injection h with h
    rw [h] at hf
    have hw : o.paymentIntentId = some pi.id := pid_of_findByPaymentIntentId hf
    rw [findByPaymentIntentId_saveOrder hf hid (hpid.trans hw)]
  | none =>
    simp only [hf] at h
    cases hm : pi.metadataOrderId with
    | none => simp [hm] at h
    | some oid =>
      simp only [hm] at h
      have hmem : o ∈ orders := List.mem_of_find?_eq_some h
      have hno : o.paymentIntentId ≠ some pi.id := by
        intro hc
        have hall := List.find?_eq_none.mp hf o hmem
        simp [hc] at hall
      have hnone : findByPaymentIntentId (saveOrder orders o') pi.id = none := by
        apply find?_saveOrder_none hf
        rw [hpid]
        exact decide_eq_false hno
      rw [hnone]
      exact findById_saveOrder h hid

theorem saveOrder_saveOrder (orders : List Order) (o : Order) :
    saveOrder (saveOrder orders o) o = saveOrder orders o := by
  induction orders with
  | nil => rfl
  | cons x xs ih =>
    simp only [saveOrder, List.map_cons] at ih ⊢
    by_cases h : x.id = o.id
    · simp [h, ih]
    · simp [h, ih]

theorem applySucceeded_id (pm : String → PaymentMethodObj) (now : Int) (o : Order)
    (pi : PaymentIntentObj) : (Legacy.applySucceeded pm now o pi).id = o.id := by
  cases hm : pi.paymentMethod <;> simp [Legacy.applySucceeded, hm]

theorem applySucceeded_pid (pm : String → PaymentMethodObj) (now : Int) (o : Order)
    (pi : PaymentIntentObj) :
    (Legacy.applySucceeded pm now o pi).paymentIntentId = o.paymentIntentId := by
  cases hm : pi.paymentMethod <;> simp [Legacy.applySucceeded, hm]

theorem applySucceeded_twice (pm : String → PaymentMethodObj) (t₁ t₂ : Int) (o : Order)
    (pi : PaymentIntentObj) :
    Legacy.applySucceeded pm t₂ (Legacy.applySucceeded pm t₁ o pi) pi =
      { Legacy.applySucceeded pm t₁ o pi with paidAt := some t₂ } := by
  cases hm : pi.paymentMethod <;> simp [Legacy.applySucceeded, hm]

/-! Helper lemmas about review aggregation. -/

theorem calculateProductRating_congr {rs rs' : List Review} {q : Nat}
    (h : approvedFor rs q = approvedFor rs' q) :
    calculateProductRating rs q = calculateProductRating rs' q := by
  unfold calculateProductRating
  rw [h]

theorem approvedFor_append_ne {rs : List Review} {r : Review} {q : Nat}
    (h : r.product ≠ q) : approvedFor (rs ++ [r]) q = approvedFor rs q := by
  unfold approvedFor
  rw [List.filter_append]
  simp [List.filter, h]

theorem approvedFor_setApprovalFirst_ne (rid : Nat) (b : Bool) (r0 : Review) (q : Nat)
    (rs : List Review) :
    rs.find? (fun r => decide (r.id = rid)) = some r0 → r0.product ≠ q →
    approvedFor (setApprovalFirst rs rid b) q = approvedFor rs q := by
  induction rs with
  | nil => intro h _; simp at h
  | cons x xs ih =>
    intro hfind hne
    by_cases hx : x.id = rid
    · rw [List.find?_cons_of_pos _ (by simpa using hx)] at hfind
      injection hfind with hfind
      rw [← hfind] at hne
      unfold setApprovalFirst
      rw [if_pos hx]
      unfold approvedFor
      simp only [List.filter_cons]
      simp [hne]
    · rw [List.find?_cons_of_neg _ (by simpa using hx)] at hfind
      unfold setApprovalFirst
      rw [if_neg hx]
      have htail := ih hfind hne
      unfold approvedFor at htail ⊢
      simp only [List.filter_cons, htail]

theorem approvedFor_eraseP_ne (rid : Nat) (r0 : Review) (q : Nat) (rs : List Review) :
    rs.find? (fun r => decide (r.id = rid)) = some r0 → r0.product ≠ q →
    approvedFor (rs.eraseP (fun r => decide (r.id = rid))) q = approvedFor rs q := by
  induction rs with
  | nil => intro h _; simp at h
  | cons x xs ih =>
    intro hfind hne
    by_cases hx : x.id = rid
    · rw [List.find?_cons_of_pos _ (by simpa using hx)] at hfind
      injection hfind with hfind
      rw [← hfind] at hne
      rw [List.eraseP_cons_of_pos (by simpa using hx)]
      unfold approvedFor
      simp only [List.filter_cons]
      simp [hne]
    · rw [List.find?_cons_of_neg _ (by simpa using hx)] at hfind
      rw [List.eraseP_cons_of_neg (by simpa using hx)]
      have htail := ih hfind hne
      unfold approvedFor at htail ⊢
      simp only [List.filter_cons, htail]

theorem ratingInv_hook_of (st : ReviewState) (reviews' : List Review) (pid : Nat)
    (hinv : ratingInv st)
    (hother : ∀ q, q ≠ pid → approvedFor reviews' q = approvedFor st.reviews q) :
    ratingInv (ratingHook { st with reviews := reviews' } pid) := by
  intro p hp
  unfold ratingHook updateProductRating at hp
  simp only [List.mem_map] at hp
  rcases hp with ⟨p0, hp0, he⟩
  by_cases hq : p0.id = pid
  · rw [if_pos hq] at he
    rw [← he]
    show _ = calculateProductRating reviews' _
    simp [hq]
  · rw [if_neg hq] at he
    rw [← he]
    show p0.rating = calculateProductRating reviews' p0.id
    rw [hinv p0 hp0]
    exact (calculateProductRating_congr (hother p0.id hq)).symm

theorem ratingInv_reviewCreate (st : ReviewState) (r : Review) (hinv : ratingInv st) :
    ratingInv (reviewCreate st r) := by
  unfold reviewCreate
  apply ratingInv_hook_of st (st.reviews ++ [r]) r.product hinv
  intro q hq
  exact approvedFor_append_ne (fun hc => hq hc.symm)

theorem ratingInv_reviewSetApproval (st : ReviewState) (rid : Nat) (b : Bool)
    (hinv : ratingInv st) : ratingInv (reviewSetApproval st rid b) := by
  unfold reviewSetApproval
  cases hfind : st.reviews.find? (fun r => decide (r.id = rid)) with
  | none => exact hinv
  | some r0 =>
    apply ratingInv_hook_of st (setApprovalFirst st.reviews rid b) r0.product hinv
    intro q hq
    exact approvedFor_setApprovalFirst_ne rid b r0 q st.reviews hfind (fun hc => hq hc.symm)

theorem ratingInv_reviewDelete (st : ReviewState) (rid : Nat)
    (hinv : ratingInv st) : ratingInv (reviewDelete st rid) := by
  unfold reviewDelete
  cases hfind : st.reviews.find? (fun r => decide (r.id = rid)) with
  | none => exact hinv
  | some r0 =>
    apply ratingInv_hook_of st (st.reviews.eraseP (fun r => decide (r.id = rid))) r0.product hinv
    intro q hq
    exact approvedFor_eraseP_ne rid r0 q st.reviews hfind (fun hc => hq hc.symm)

/-- C1 counterexample: a paid order resolved by its payment intent id is
regressed to failed by a payment_intent.payment_failed event, so paid state
is not monotone under failed or canceled events. -/
theorem paid_not_monotone_cex :
    cexPaidOrder.paymentStatus = PaymentStatus.paid ∧
    (Legacy.webhookHandler pmDefault 5 [cexPaidOrder]
        (StripeEvent.paymentIntentPaymentFailed ⟨"pi_1", none, none⟩)).orders =
      [{ cexPaidOrder with paymentStatus := PaymentStatus.failed, paymentMethod := "card" }] ∧
    PaymentStatus.failed ≠ PaymentStatus.paid := by
  refine ⟨rfl, rfl, by decide⟩

/-- C1 amended: the webhook handler applies payment_failed and canceled
events without any source state check, so an order whose paymentStatus is
paid is overwritten to failed whenever such an event resolves to it; the
event is applied, not ignored. -/
theorem failed_canceled_regress_paid (pm : String → PaymentMethodObj) (now : Int)
    (orders : List Order) (pi : PaymentIntentObj) (o : Order)
    (hres : resolveByPidThenMeta orders pi = some o)
    (hpaid : o.paymentStatus = PaymentStatus.paid) :
    (Legacy.webhookHandler pm now orders (StripeEvent.paymentIntentPaymentFailed pi)).orders =
      saveOrder orders { o with paymentStatus := PaymentStatus.failed, paymentMethod := "card" } ∧
    (Legacy.webhookHandler pm now orders (StripeEvent.paymentIntentCanceled pi)).orders =
      saveOrder orders { o with paymentStatus := PaymentStatus.failed } ∧
    ({ o with paymentStatus := PaymentStatus.failed } : Order).paymentStatus ≠
      PaymentStatus.paid := by
  refine ⟨?_, ?_, by simp⟩ <;> simp [Legacy.webhookHandler, hres]

/-- C1 witness: the amended statement at a concrete paid order. -/
theorem failed_canceled_regress_paid_witness :
    (Legacy.webhookHandler pmDefault 5 [cexPaidOrder]
        (StripeEvent.paymentIntentPaymentFailed ⟨"pi_1", none, none⟩)).orders =
      saveOrder [cexPaidOrder]
        { cexPaidOrder with paymentStatus := PaymentStatus.failed, paymentMethod := "card" } ∧
    (Legacy.webhookHandler pmDefault 5 [cexPaidOrder]
        (StripeEvent.paymentIntentCanceled ⟨"pi_1", none, none⟩)).orders =
      saveOrder [cexPaidOrder] { cexPaidOrder with paymentStatus := PaymentStatus.failed } ∧
    ({ cexPaidOrder with paymentStatus := PaymentStatus.failed } : Order).paymentStatus ≠
      PaymentStatus.paid :=
  failed_canceled_regress_paid pmDefault 5 [cexPaidOrder] ⟨"pi_1", none, none⟩ cexPaidOrder
    (by rfl) (by rfl)

/-- C4 counterexample: a payment_intent.succeeded event is applied to an
order whose paymentStatus is refunded (not a valid source per the claim)
and whose orderStatus is delivered, and the orderStatus is still forced to
confirmed, refuting both the source restriction and the conditional
orderStatus update. -/
theorem succeeded_unconditional_cex :
    cexRefundedDeliveredOrder.paymentStatus = PaymentStatus.refunded ∧
    cexRefundedDeliveredOrder.orderStatus = OrderStatus.delivered ∧
    (Legacy.webhookHandler pmDefault 7 [cexRefundedDeliveredOrder]
        (StripeEvent.paymentIntentSucceeded ⟨"pi_1", none, none⟩)).orders =
      [{ cexRefundedDeliveredOrder with
          isPaid := true, paidAt := some 7,
          paymentStatus := PaymentStatus.paid, orderStatus := OrderStatus.confirmed }] := by
  refine ⟨rfl, rfl, rfl⟩

/-- C4 amended: the succeeded branch applies from every paymentStatus, sets
paymentStatus to paid, isPaid, paidAt to the processing time, and
unconditionally forces orderStatus to confirmed whatever it was before. -/
theorem succeeded_transition (pm : String → PaymentMethodObj) (now : Int)
    (orders : List Order) (pi : PaymentIntentObj) (o : Order)
    (hres : resolveByPidThenMeta orders pi = some o) :
    (Legacy.webhookHandler pm now orders (StripeEvent.paymentIntentSucceeded pi)).orders =
      saveOrder orders (Legacy.applySucceeded pm now o pi) ∧
    (Legacy.applySucceeded pm now o pi).paymentStatus = PaymentStatus.paid ∧
    (Legacy.applySucceeded pm now o pi).isPaid = true ∧
    (Legacy.applySucceeded pm now o pi).paidAt = some now ∧
    (Legacy.applySucceeded pm now o pi).orderStatus = OrderStatus.confirmed := by
  refine ⟨by simp [Legacy.webhookHandler, hres], ?_, ?_, ?_, ?_⟩ <;>
    cases hm : pi.paymentMethod <;> simp [Legacy.applySucceeded, hm]

/-- C4 witness: the amended statement at a concrete processing order. -/
theorem succeeded_transition_witness :
    (Legacy.webhookHandler pmDefault 7 [cexProcessingOrder]
        (StripeEvent.paymentIntentSucceeded ⟨"pi_1", none, none⟩)).orders =
      saveOrder [cexProcessingOrder]
        (Legacy.applySucceeded pmDefault 7 cexProcessingOrder ⟨"pi_1", none, none⟩) ∧
    (Legacy.applySucceeded pmDefault 7 cexProcessingOrder
        ⟨"pi_1", none, none⟩).paymentStatus = PaymentStatus.paid ∧
    (Legacy.applySucceeded pmDefault 7 cexProcessingOrder ⟨"pi_1", none, none⟩).isPaid = true ∧
    (Legacy.applySucceeded pmDefault 7 cexProcessingOrder
        ⟨"pi_1", none, none⟩).paidAt = some 7 ∧
    (Legacy.applySucceeded pmDefault 7 cexProcessingOrder
        ⟨"pi_1", none, none⟩).orderStatus = OrderStatus.confirmed :=
  succeeded_transition pmDefault 7 [cexProcessingOrder] ⟨"pi_1", none, none⟩
    cexProcessingOrder (by rfl)

/-- C7 counterexample: in the routed webhook handler a succeeded event whose
payment intent id matches order 1 but whose metadata names order 2 is
applied to order 2, while order 1, the authorization id match, stays
untouched; resolution is metadata first there, not authorization id first. -/
theorem resolution_precedence_cex :
    cexProcessingOrder.paymentIntentId = some "pi_1" ∧
    (Routed.webhookHandler 3 [cexProcessingOrder, cexOrderY]
        (StripeEvent.paymentIntentSucceeded ⟨"pi_1", some 2, none⟩)).orders =
      [cexProcessingOrder,
        { cexOrderY with
            isPaid := true, paidAt := some 3,
            paymentStatus := PaymentStatus.paid, paymentIntentId := some "pi_1",
            orderStatus := OrderStatus.confirmed }] := by
  refine ⟨rfl, rfl⟩

/-- C7 amended: the payment controller handler resolves payment intent id
first with a metadata fallback applied exactly once, the routed succeeded
branch resolves the metadata order id first, and an event resolving by
neither path is acknowledged with 200 and received true without mutating
any order. -/
theorem resolution_precedence_amended (pm : String → PaymentMethodObj) (now : Int)
    (orders : List Order) (pi : PaymentIntentObj) :
    (∀ o, findByPaymentIntentId orders pi.id = some o →
      (Legacy.webhookHandler pm now orders (StripeEvent.paymentIntentSucceeded pi)).orders =
        saveOrder orders (Legacy.applySucceeded pm now o pi)) ∧
    (∀ oid o, findByPaymentIntentId orders pi.id = none → pi.metadataOrderId = some oid →
      findById orders oid = some o →
      (Legacy.webhookHandler pm now orders (StripeEvent.paymentIntentSucceeded pi)).orders =
        saveOrder orders (Legacy.applySucceeded pm now o pi)) ∧
    (∀ oid o, pi.metadataOrderId = some oid → findById orders oid = some o →
      (Routed.webhookHandler now orders (StripeEvent.paymentIntentSucceeded pi)).orders =
        saveOrder orders { o with
          isPaid := true, paidAt := some now,
          paymentStatus := PaymentStatus.paid, paymentIntentId := some pi.id,
          orderStatus := OrderStatus.confirmed }) ∧
    (resolveByPidThenMeta orders pi = none →
      Legacy.webhookHandler pm now orders (StripeEvent.paymentIntentSucceeded pi) =
        ⟨orders, 200, true⟩) ∧
    (resolveByMetaThenPid orders pi = none →
      Routed.webhookHandler now orders (StripeEvent.paymentIntentSucceeded pi) =
        ⟨orders, 200, true⟩) := by
  refine ⟨?_, ?_, ?_, ?_, ?_⟩
  · intro o ho
    simp [Legacy.webhookHandler, resolveByPidThenMeta, ho]
  · intro oid o hno hm ho
    simp [Legacy.webhookHandler, resolveByPidThenMeta, hno, hm, ho]
  · intro oid o hm ho
    simp [Routed.webhookHandler, resolveByMetaThenPid, hm, ho]
  · intro hn
    simp [Legacy.webhookHandler, hn]
  · intro hn
    simp [Routed.webhookHandler, hn]

/-- C7 witness: the metadata fallback of the payment controller handler
applied once at a concrete order that only metadata resolves. -/
theorem resolution_precedence_amended_witness :
    (Legacy.webhookHandler pmDefault 3 [cexOrderY]
        (StripeEvent.paymentIntentSucceeded ⟨"pi_9", some 2, none⟩)).orders =
      saveOrder [cexOrderY]
        (Legacy.applySucceeded pmDefault 3 cexOrderY ⟨"pi_9", some 2, none⟩) :=
  (resolution_precedence_amended pmDefault 3 [cexOrderY] ⟨"pi_9", some 2, none⟩).2.1 2
    cexOrderY (by rfl) (by rfl) (by rfl)

/-- C8 counterexample: a charge.refunded event resolving to an order that
was never paid (paymentStatus processing, isPaid false) is not ignored; the
order is moved to refunded. -/
theorem refund_unpaid_cex :
    cexProcessingOrder.isPaid = false ∧
    cexProcessingOrder.paymentStatus = PaymentStatus.processing ∧
    (Legacy.webhookHandler pmDefault 9 [cexProcessingOrder]
        (StripeEvent.chargeRefunded ⟨some "pi_1"⟩)).orders =
      [{ cexProcessingOrder with paymentStatus := PaymentStatus.refunded }] := by
  refine ⟨rfl, rfl, rfl⟩

/-- C8 amended: in the payment controller handler a charge.refunded event
sets paymentStatus to refunded on every order whose paymentIntentId matches
its payment intent reference, paid or not; with no match, or no payment
intent reference, every order is left untouched and the event is
acknowledged; the routed handler ignores charge.refunded entirely. -/
theorem refund_transition_amended (pm : String → PaymentMethodObj) (now : Int)
    (orders : List Order) (pid : String) :
    (∀ o, findByPaymentIntentId orders pid = some o →
      (Legacy.webhookHandler pm now orders (StripeEvent.chargeRefunded ⟨some pid⟩)).orders =
        saveOrder orders { o with paymentStatus := PaymentStatus.refunded }) ∧
    (findByPaymentIntentId orders pid = none →
      Legacy.webhookHandler pm now orders (StripeEvent.chargeRefunded ⟨some pid⟩) =
        ⟨orders, 200, true⟩) ∧
    (Legacy.webhookHandler pm now orders (StripeEvent.chargeRefunded ⟨none⟩) =
      ⟨orders, 200, true⟩) ∧
    (∀ charge, Routed.webhookHandler now orders (StripeEvent.chargeRefunded charge) =
      ⟨orders, 200, true⟩) := by
  refine ⟨?_, ?_, ?_, ?_⟩
  · intro o ho
    simp [Legacy.webhookHandler, ho]
  · intro hn
    simp [Legacy.webhookHandler, hn]
  · simp [Legacy.webhookHandler]
  · intro charge
    simp [Routed.webhookHandler]

/-- C8 witness: a concrete paid order is moved to refunded by the event,
the true half of the original claim. -/
theorem refund_transition_amended_witness :
    (Legacy.webhookHandler pmDefault 9 [cexPaidOrder]
        (StripeEvent.chargeRefunded ⟨some "pi_1"⟩)).orders =
      saveOrder [cexPaidOrder] { cexPaidOrder with paymentStatus := PaymentStatus.refunded } :=
  (refund_transition_amended pmDefault 9 [cexPaidOrder] "pi_1").1 cexPaidOrder (by rfl)

/-- C2 counterexample: processing the same succeeded event a second time,
one time unit after the first processing, does not yield an identical order
state; the first processing stamps paidAt 0, the reprocessing overwrites it
with paidAt 1 and writes the order again. -/
theorem reprocessing_not_idempotent_cex :
    (Legacy.webhookHandler pmDefault 0 [cexProcessingOrder]
        (StripeEvent.paymentIntentSucceeded ⟨"pi_1", none, none⟩)).orders =
      [{ cexProcessingOrder with
          isPaid := true, paidAt := some 0,
          paymentStatus := PaymentStatus.paid, orderStatus := OrderStatus.confirmed }] ∧
    (Legacy.webhookHandler pmDefault 1
        ((Legacy.webhookHandler pmDefault 0 [cexProcessingOrder]
            (StripeEvent.paymentIntentSucceeded ⟨"pi_1", none, none⟩)).orders)
        (StripeEvent.paymentIntentSucceeded ⟨"pi_1", none, none⟩)).orders =
      [{ cexProcessingOrder with
          isPaid := true, paidAt := some 1,
          paymentStatus := PaymentStatus.paid, orderStatus := OrderStatus.confirmed }] ∧
    (Legacy.webhookHandler pmDefault 1
        ((Legacy.webhookHandler pmDefault 0 [cexProcessingOrder]
            (StripeEvent.paymentIntentSucceeded ⟨"pi_1", none, none⟩)).orders)
        (StripeEvent.paymentIntentSucceeded ⟨"pi_1", none, none⟩)).orders ≠
      (Legacy.webhookHandler pmDefault 0 [cexProcessingOrder]
          (StripeEvent.paymentIntentSucceeded ⟨"pi_1", none, none⟩)).orders := by
  refine ⟨rfl, rfl, by decide⟩

/-- C2 amended: there is no idempotency ledger; every redelivery is
re-applied and re-saved.  Reprocessing a failed, canceled or refunded event
reproduces the same state, while reprocessing a succeeded event reproduces
the same state except that paidAt is refreshed to the reprocessing time. -/
theorem reprocess_effects (pm : String → PaymentMethodObj) (t₁ t₂ : Int)
    (orders : List Order) (pi : PaymentIntentObj) (pid : String) (o w : Order)
    (hres : resolveByPidThenMeta orders pi = some o)
    (href : findByPaymentIntentId orders pid = some w) :
    (Legacy.webhookHandler pm t₂
        (Legacy.webhookHandler pm t₁ orders (StripeEvent.paymentIntentPaymentFailed pi)).orders
        (StripeEvent.paymentIntentPaymentFailed pi)).orders =
      (Legacy.webhookHandler pm t₁ orders (StripeEvent.paymentIntentPaymentFailed pi)).orders ∧
    (Legacy.webhookHandler pm t₂
        (Legacy.webhookHandler pm t₁ orders (StripeEvent.paymentIntentCanceled pi)).orders
        (StripeEvent.paymentIntentCanceled pi)).orders =
      (Legacy.webhookHandler pm t₁ orders (StripeEvent.paymentIntentCanceled pi)).orders ∧
    (Legacy.webhookHandler pm t₂
        (Legacy.webhookHandler pm t₁ orders (StripeEvent.chargeRefunded ⟨some pid⟩)).orders
        (StripeEvent.chargeRefunded ⟨some pid⟩)).orders =
      (Legacy.webhookHandler pm t₁ orders (StripeEvent.chargeRefunded ⟨some pid⟩)).orders ∧
    (Legacy.webhookHandler pm t₂
        (Legacy.webhookHandler pm t₁ orders (StripeEvent.paymentIntentSucceeded pi)).orders
        (StripeEvent.paymentIntentSucceeded pi)).orders =
      saveOrder (Legacy.webhookHandler pm t₁ orders (StripeEvent.paymentIntentSucceeded pi)).orders
        { Legacy.applySucceeded pm t₁ o pi with paidAt := some t₂ } := by
  refine ⟨?_, ?_, ?_, ?_⟩
  · have h1 : (Legacy.webhookHandler pm t₁ orders
        (StripeEvent.paymentIntentPaymentFailed pi)).orders =
        saveOrder orders { o with paymentStatus := PaymentStatus.failed, paymentMethod := "card" } := by
      simp [Legacy.webhookHandler, hres]
    have hstab : resolveByPidThenMeta
        (saveOrder orders { o with paymentStatus := PaymentStatus.failed, paymentMethod := "card" }) pi =
        some { o with paymentStatus := PaymentStatus.failed, paymentMethod := "card" } :=
      resolveByPidThenMeta_saveOrder hres rfl rfl
    rw [h1]
    simp only [Legacy.webhookHandler, hstab]
    exact saveOrder_saveOrder orders _
  · have h1 : (Legacy.webhookHandler pm t₁ orders
        (StripeEvent.paymentIntentCanceled pi)).orders =
        saveOrder orders { o with paymentStatus := PaymentStatus.failed } := by
      simp [Legacy.webhookHandler, hres]
    have hstab : resolveByPidThenMeta
        (saveOrder orders { o with paymentStatus := PaymentStatus.failed }) pi =
        some { o with paymentStatus := PaymentStatus.failed } :=
      resolveByPidThenMeta_saveOrder hres rfl rfl
    rw [h1]
    simp only [Legacy.webhookHandler, hstab]
    exact saveOrder_saveOrder orders _
  · have h1 : (Legacy.webhookHandler pm t₁ orders
        (StripeEvent.chargeRefunded ⟨some pid⟩)).orders =
        saveOrder orders { w with paymentStatus := PaymentStatus.refunded } := by
      simp [Legacy.webhookHandler, href]
    have hwpid : w.paymentIntentId = some pid := pid_of_findByPaymentIntentId href
    have hstab : findByPaymentIntentId
        (saveOrder orders { w with paymentStatus := PaymentStatus.refunded }) pid =
        some { w with paymentStatus := PaymentStatus.refunded } :=
      findByPaymentIntentId_saveOrder href rfl hwpid
    rw [h1]
    simp only [Legacy.webhookHandler, hstab]
    exact saveOrder_saveOrder orders _
  · have h1 : (Legacy.webhookHandler pm t₁ orders
        (StripeEvent.paymentIntentSucceeded pi)).orders =
        saveOrder orders (Legacy.applySucceeded pm t₁ o pi) := by
      simp [Legacy.webhookHandler, hres]
    have hstab : resolveByPidThenMeta
        (saveOrder orders (Legacy.applySucceeded pm t₁ o pi)) pi =
        some (Legacy.applySucceeded pm t₁ o pi) :=
      resolveByPidThenMeta_saveOrder hres (applySucceeded_id pm t₁ o pi)
        (applySucceeded_pid pm t₁ o pi)
    rw [h1]
    simp only [Legacy.webhookHandler, hstab]
    rw [applySucceeded_twice]

/-- C2 witness: the amended statement at a concrete processing order. -/
theorem reprocess_effects_witness :
    (Legacy.webhookHandler pmDefault 1
        (Legacy.webhookHandler pmDefault 0 [cexProcessingOrder]
          (StripeEvent.paymentIntentPaymentFailed ⟨"pi_1", none, none⟩)).orders
        (StripeEvent.paymentIntentPaymentFailed ⟨"pi_1", none, none⟩)).orders =
      (Legacy.webhookHandler pmDefault 0 [cexProcessingOrder]
          (StripeEvent.paymentIntentPaymentFailed ⟨"pi_1", none, none⟩)).orders ∧
    (Legacy.webhookHandler pmDefault 1
        (Legacy.webhookHandler pmDefault 0 [cexProcessingOrder]
          (StripeEvent.paymentIntentCanceled ⟨"pi_1", none, none⟩)).orders
        (StripeEvent.paymentIntentCanceled ⟨"pi_1", none, none⟩)).orders =
      (Legacy.webhookHandler pmDefault 0 [cexProcessingOrder]
          (StripeEvent.paymentIntentCanceled ⟨"pi_1", none, none⟩)).orders ∧
    (Legacy.webhookHandler pmDefault 1
        (Legacy.webhookHandler pmDefault 0 [cexProcessingOrder]
          (StripeEvent.chargeRefunded ⟨some "pi_1"⟩)).orders
        (StripeEvent.chargeRefunded ⟨some "pi_1"⟩)).orders =
      (Legacy.webhookHandler pmDefault 0 [cexProcessingOrder]
          (StripeEvent.chargeRefunded ⟨some "pi_1"⟩)).orders ∧
    (Legacy.webhookHandler pmDefault 1
        (Legacy.webhookHandler pmDefault 0 [cexProcessingOrder]
          (StripeEvent.paymentIntentSucceeded ⟨"pi_1", none, none⟩)).orders
        (StripeEvent.paymentIntentSucceeded ⟨"pi_1", none, none⟩)).orders =
      saveOrder (Legacy.webhookHandler pmDefault 0 [cexProcessingOrder]
          (StripeEvent.paymentIntentSucceeded ⟨"pi_1", none, none⟩)).orders
        { Legacy.applySucceeded pmDefault 0 cexProcessingOrder ⟨"pi_1", none, none⟩ with
            paidAt := some 1 } :=
  reprocess_effects pmDefault 0 1 [cexProcessingOrder] ⟨"pi_1", none, none⟩ "pi_1"
    cexProcessingOrder cexProcessingOrder (by rfl) (by rfl)

/-- C3: the payment creation preconditions are checked in source order,
each failing check answers with its own distinct error, and every failing
check leaves the order and user tables unchanged and issues no gateway
call. -/
theorem createPaymentIntent_gating (env : StripeEnv) (now : Int) (st : PayState)
    (orderId : Nat) (userId : Nat) :
    (findById st.orders orderId = none →
      createPaymentIntent env now st orderId userId =
        ⟨PayResponse.err 404 "Order not found", st, []⟩) ∧
    (∀ o, findById st.orders orderId = some o → o.user ≠ userId →
      createPaymentIntent env now st orderId userId =
        ⟨PayResponse.err 403 "Not authorized to pay for this order", st, []⟩) ∧
    (∀ o, findById st.orders orderId = some o → o.user = userId →
      (o.paymentStatus = PaymentStatus.paid ∨ o.isPaid = true) →
      createPaymentIntent env now st orderId userId =
        ⟨PayResponse.err 400 "Order already paid", st, []⟩) ∧
    (∀ o, findById st.orders orderId = some o → o.user = userId →
      ¬(o.paymentStatus = PaymentStatus.paid ∨ o.isPaid = true) →
      o.orderStatus = OrderStatus.cancelled →
      createPaymentIntent env now st orderId userId =
        ⟨PayResponse.err 400 "Cannot pay for cancelled order", st, []⟩) ∧
    (∀ o, findById st.orders orderId = some o → o.user = userId →
      ¬(o.paymentStatus = PaymentStatus.paid ∨ o.isPaid = true) →
      o.orderStatus ≠ OrderStatus.cancelled → o.deliveryDate < now →
      createPaymentIntent env now st orderId userId =
        ⟨PayResponse.err 400 "Delivery date has passed. Please create a new order.", st, []⟩) := by
  refine ⟨?_, ?_, ?_, ?_, ?_⟩
  · intro h
    simp [createPaymentIntent, h]
  · intro o ho huser
    simp [createPaymentIntent, ho, huser]
  · intro o ho huser hpaid
    simp [createPaymentIntent, ho, huser, hpaid]
  · intro o ho huser hpaid hcanc
    simp [createPaymentIntent, ho, huser, hpaid, hcanc]
  · intro o ho huser hpaid hcanc hdate
    simp [createPaymentIntent, ho, huser, hpaid, hcanc, hdate]

/-- C3 witness: every failing check exercised at a concrete input. -/
theorem createPaymentIntent_gating_witness :
    createPaymentIntent envC 0 ⟨[], []⟩ 1 1 =
      ⟨PayResponse.err 404 "Order not found", ⟨[], []⟩, []⟩ ∧
    createPaymentIntent envC 0 ⟨[{ newOrder 1 2 "DD1" 100 10 with paymentStatus := PaymentStatus.pending }], []⟩ 1 1 =
      ⟨PayResponse.err 403 "Not authorized to pay for this order",
        ⟨[{ newOrder 1 2 "DD1" 100 10 with paymentStatus := PaymentStatus.pending }], []⟩, []⟩ ∧
    createPaymentIntent envC 0 ⟨[{ newOrder 1 1 "DD1" 100 10 with paymentStatus := PaymentStatus.paid }], []⟩ 1 1 =
      ⟨PayResponse.err 400 "Order already paid",
        ⟨[{ newOrder 1 1 "DD1" 100 10 with paymentStatus := PaymentStatus.paid }], []⟩, []⟩ ∧
    createPaymentIntent envC 0 ⟨[{ newOrder 1 1 "DD1" 100 10 with orderStatus := OrderStatus.cancelled }], []⟩ 1 1 =
      ⟨PayResponse.err 400 "Cannot pay for cancelled order",
        ⟨[{ newOrder 1 1 "DD1" 100 10 with orderStatus := OrderStatus.cancelled }], []⟩, []⟩ ∧
    createPaymentIntent envC 5 ⟨[newOrder 1 1 "DD1" 100 (-1)], []⟩ 1 1 =
      ⟨PayResponse.err 400 "Delivery date has passed. Please create a new order.",
        ⟨[newOrder 1 1 "DD1" 100 (-1)], []⟩, []⟩ :=
  ⟨(createPaymentIntent_gating envC 0 ⟨[], []⟩ 1 1).1 (by rfl),
    (createPaymentIntent_gating envC 0
        ⟨[{ newOrder 1 2 "DD1" 100 10 with paymentStatus := PaymentStatus.pending }], []⟩ 1 1).2.1
      _ (by rfl) (by decide),
    (createPaymentIntent_gating envC 0
        ⟨[{ newOrder 1 1 "DD1" 100 10 with paymentStatus := PaymentStatus.paid }], []⟩ 1 1).2.2.1
      _ (by rfl) (by decide) (by decide),
    (createPaymentIntent_gating envC 0
        ⟨[{ newOrder 1 1 "DD1" 100 10 with orderStatus := OrderStatus.cancelled }], []⟩ 1 1).2.2.2.1
      _ (by rfl) (by decide) (by decide) (by decide),
    (createPaymentIntent_gating envC 5 ⟨[newOrder 1 1 "DD1" 100 (-1)], []⟩ 1 1).2.2.2.2
      _ (by rfl) (by decide) (by decide) (by decide) (by decide)⟩

/-- C5: when every precondition passes and the user record exists, the
orchestrator creates a new payment intent at the gateway, unconditionally
overwrites the order's payment intent id with the fresh one, persists
paymentStatus processing, and answers with the client secret, the payment
intent id, the order amount and the configured currency. -/
theorem createPaymentIntent_success (env : StripeEnv) (now : Int) (st : PayState)
    (orderId : Nat) (userId : Nat) (o : Order) (u : User)
    (ho : findById st.orders orderId = some o)
    (howner : o.user = userId)
    (hnotpaid : ¬(o.paymentStatus = PaymentStatus.paid ∨ o.isPaid = true))
    (hnotcancelled : o.orderStatus ≠ OrderStatus.cancelled)
    (hdate : ¬ o.deliveryDate < now)
    (hu : findUser st.users userId = some u) :
    createPaymentIntent env now st orderId userId =
      ⟨PayResponse.ok env.freshClientSecret env.freshPaymentIntentId o.totalAmount
          (env.currencyEnv.getD "usd"),
        ⟨saveOrder st.orders { o with
            paymentIntentId := some env.freshPaymentIntentId,
            stripeCustomerId := some (resolveCustomer env st.users u).1,
            paymentStatus := PaymentStatus.processing,
            paymentMethod := "card" },
          (resolveCustomer env st.users u).2.1⟩,
        (resolveCustomer env st.users u).2.2 ++
          [GatewayCall.createPaymentIntent (toMinorUnits o.totalAmount)
            (env.currencyEnv.getD "usd") (resolveCustomer env st.users u).1
            o.id o.user o.orderNumber]⟩ := by
  simp [createPaymentIntent, ho, howner, hnotpaid, hnotcancelled, hdate, hu]

/-- C5 witness: a concrete successful payment creation. -/
theorem createPaymentIntent_success_witness :
    createPaymentIntent envC 0 ⟨[newOrder 1 1 "DD1" (1999 / 100) 10], [cexUser]⟩ 1 1 =
      ⟨PayResponse.ok envC.freshClientSecret envC.freshPaymentIntentId
          ((1999 : ℚ) / 100) (envC.currencyEnv.getD "usd"),
        ⟨saveOrder [newOrder 1 1 "DD1" (1999 / 100) 10]
            { newOrder 1 1 "DD1" ((1999 : ℚ) / 100) 10 with
              paymentIntentId := some envC.freshPaymentIntentId,
              stripeCustomerId := some (resolveCustomer envC [cexUser] cexUser).1,
              paymentStatus := PaymentStatus.processing,
              paymentMethod := "card" },
          (resolveCustomer envC [cexUser] cexUser).2.1⟩,
        (resolveCustomer envC [cexUser] cexUser).2.2 ++
          [GatewayCall.createPaymentIntent (toMinorUnits ((1999 : ℚ) / 100))
            (envC.currencyEnv.getD "usd") (resolveCustomer envC [cexUser] cexUser).1
            1 1 "DD1"]⟩ :=
  createPaymentIntent_success envC 0 ⟨[newOrder 1 1 "DD1" (1999 / 100) 10], [cexUser]⟩ 1 1
    (newOrder 1 1 "DD1" (1999 / 100) 10) cexUser (by rfl) (by rfl) (by decide) (by decide)
    (by decide) (by rfl)

/-! Helper lemmas for the paid flag invariant. -/

theorem paidInv_applySucceeded (pm : String → PaymentMethodObj) (now : Int) (o : Order)
    (pi : PaymentIntentObj) : paidInv (Legacy.applySucceeded pm now o pi) := by
  cases hm : pi.paymentMethod <;> simp [Legacy.applySucceeded, hm, paidInv]

theorem paidInv_legacy_succeeded (pm : String → PaymentMethodObj) (now : Int)
    (orders : List Order) (pi : PaymentIntentObj) (hall : ∀ o ∈ orders, paidInv o) :
    ∀ o' ∈ (Legacy.webhookHandler pm now orders
      (StripeEvent.paymentIntentSucceeded pi)).orders, paidInv o' := by
  simp only [Legacy.webhookHandler]
  cases hres : resolveByPidThenMeta orders pi with
  | none => exact hall
  | some o =>
    intro o' ho'
    rcases mem_saveOrder ho' with rfl | hmem
    · exact paidInv_applySucceeded pm now o pi
    · exact hall o' hmem

theorem paidInv_routed_succeeded (now : Int) (orders : List Order) (pi : PaymentIntentObj)
    (hall : ∀ o ∈ orders, paidInv o) :
    ∀ o' ∈ (Routed.webhookHandler now orders
      (StripeEvent.paymentIntentSucceeded pi)).orders, paidInv o' := by
  simp only [Routed.webhookHandler]
  cases hres : resolveByMetaThenPid orders pi with
  | none => exact hall
  | some o =>
    intro o' ho'
    rcases mem_saveOrder ho' with rfl | hmem
    · simp [paidInv]
    · exact hall o' hmem

theorem paidInv_routed_failed (now : Int) (orders : List Order) (pi : PaymentIntentObj)
    (hall : ∀ o ∈ orders, paidInv o) :
    ∀ o' ∈ (Routed.webhookHandler now orders
      (StripeEvent.paymentIntentPaymentFailed pi)).orders, paidInv o' := by
  simp only [Routed.webhookHandler]
  cases hres : resolveByPidThenMeta orders pi with
  | none => exact hall
  | some o =>
    intro o' ho'
    rcases mem_saveOrder ho' with rfl | hmem
    · simp [paidInv]
    · exact hall o' hmem

theorem paidInv_createPaymentIntent (env : StripeEnv) (now : Int) (st : PayState)
    (orderId : Nat) (userId : Nat) (hall : ∀ o ∈ st.orders, paidInv o) :
    ∀ o' ∈ (createPaymentIntent env now st orderId userId).state.orders, paidInv o' := by
  unfold createPaymentIntent
  cases hf : findById st.orders orderId with
  | none => exact hall
  | some o =>
    by_cases h1 : o.user ≠ userId
    · simp only [if_pos h1]
      exact hall
    · simp only [if_neg h1]
      by_cases h2 : o.paymentStatus = PaymentStatus.paid ∨ o.isPaid = true
      · simp only [if_pos h2]
        exact hall
      · simp only [if_neg h2]
        by_cases h3 : o.orderStatus = OrderStatus.cancelled
        · simp only [if_pos h3]
          exact hall
        · simp only [if_neg h3]
          by_cases h4 : o.deliveryDate < now
          · simp only [if_pos h4]
            exact hall
          · simp only [if_neg h4]
            cases hu : findUser st.users userId with
            | none => exact hall
            | some u =>
              intro o' ho'
              rcases mem_saveOrder ho' with rfl | hmem
              · have hip : o.isPaid = false := by
                  rcases Bool.eq_false_or_eq_true o.isPaid with h | h
                  · exact absurd (Or.inr h) h2
                  · exact h
                simp [paidInv, hip]
              · exact hall o' hmem

/-- C6 counterexample: a canceled event resolving to a paid order moves
paymentStatus to failed but leaves isPaid true, so the iff between isPaid
and paymentStatus paid is broken by that operation. -/
theorem paid_flag_invariant_cex :
    paidInv cexPaidOrder ∧
    (Legacy.webhookHandler pmDefault 5 [cexPaidOrder]
        (StripeEvent.paymentIntentCanceled ⟨"pi_1", none, none⟩)).orders =
      [{ cexPaidOrder with paymentStatus := PaymentStatus.failed }] ∧
    ¬ paidInv { cexPaidOrder with paymentStatus := PaymentStatus.failed } := by
  refine ⟨by decide, rfl, by decide⟩

/-- C6 amended: the iff between isPaid and paymentStatus paid holds at
order creation and is preserved by createPaymentIntent, by succeeded events
in both handlers, and by the routed failed branch; but the canceled branch
writes paymentStatus failed without touching isPaid, so applying it, or the
payment controller failed and refunded branches, to an order carrying
isPaid true breaks the invariant. -/
theorem paid_flag_invariant_amended :
    (∀ (i u : Nat) (num : String) (amount : ℚ) (ddate : Int),
      paidInv (newOrder i u num amount ddate)) ∧
    (∀ env now st orderId userId, (∀ o ∈ PayState.orders st, paidInv o) →
      ∀ o' ∈ (createPaymentIntent env now st orderId userId).state.orders, paidInv o') ∧
    (∀ pm now orders pi, (∀ o ∈ orders, paidInv o) →
      ∀ o' ∈ (Legacy.webhookHandler pm now orders
        (StripeEvent.paymentIntentSucceeded pi)).orders, paidInv o') ∧
    (∀ now orders pi, (∀ o ∈ orders, paidInv o) →
      ∀ o' ∈ (Routed.webhookHandler now orders
        (StripeEvent.paymentIntentSucceeded pi)).orders, paidInv o') ∧
    (∀ now orders pi, (∀ o ∈ orders, paidInv o) →
      ∀ o' ∈ (Routed.webhookHandler now orders
        (StripeEvent.paymentIntentPaymentFailed pi)).orders, paidInv o') ∧
    (∀ o : Order, o.isPaid = true →
      ¬ paidInv { o with paymentStatus := PaymentStatus.failed } ∧
      ¬ paidInv { o with paymentStatus := PaymentStatus.refunded }) ∧
    (∀ pm now orders pi o, resolveByPidThenMeta orders pi = some o →
      (Legacy.webhookHandler pm now orders
          (StripeEvent.paymentIntentCanceled pi)).orders =
        saveOrder orders { o with paymentStatus := PaymentStatus.failed }) := by
  refine ⟨?_, paidInv_createPaymentIntent, paidInv_legacy_succeeded,
    paidInv_routed_succeeded, paidInv_routed_failed, ?_, ?_⟩
  · intro i u num amount ddate
    simp [paidInv, newOrder]
  · intro o h
    constructor <;> simp [paidInv, h]
  · intro pm now orders pi o hres
    simp [Legacy.webhookHandler, hres]

/-- C6 witness: the createPaymentIntent preservation arm at a concrete
state satisfying the invariant. -/
theorem paid_flag_invariant_amended_witness :
    ∀ o' ∈ (createPaymentIntent envC 0
      ⟨[newOrder 1 1 "DD1" 100 10], [cexUser]⟩ 1 1).state.orders, paidInv o' :=
  paid_flag_invariant_amended.2.1 envC 0 ⟨[newOrder 1 1 "DD1" 100 10], [cexUser]⟩ 1 1
    (by decide)

/-- C9: minor unit conversion round trips exactly on every non-negative
major amount with at most two decimal places, the orchestrator charges
exactly the rounded minor amount of the order total, and the status read
path reports the gateway amount divided by one hundred. -/
theorem amount_round_trip :
    (∀ k : ℕ, fromMinorUnits (toMinorUnits ((k : ℚ) / 100)) = (k : ℚ) / 100) ∧
    (∀ env now st orderId userId o u, findById st.orders orderId = some o →
      o.user = userId → ¬(o.paymentStatus = PaymentStatus.paid ∨ o.isPaid = true) →
      o.orderStatus ≠ OrderStatus.cancelled → ¬ o.deliveryDate < now →
      findUser st.users userId = some u →
      (createPaymentIntent env now st orderId userId).calls =
        (resolveCustomer env st.users u).2.2 ++
          [GatewayCall.createPaymentIntent (toMinorUnits o.totalAmount)
            (env.currencyEnv.getD "usd") (resolveCustomer env st.users u).1
            o.id o.user o.orderNumber]) ∧
    (∀ retrieve orders oid uid role o pid snap, findById orders oid = some o →
      ¬(o.user ≠ uid ∧ role ≠ "admin") → o.paymentIntentId = some pid →
      retrieve pid = some snap →
      getPaymentStatus retrieve orders oid uid role =
        StatusResponse.full snap.piStatus o.paymentStatus o.isPaid
          (fromMinorUnits snap.amount) snap.currency snap.id) := by
  refine ⟨?_, ?_, ?_⟩
  · intro k
    unfold fromMinorUnits toMinorUnits
    rw [div_mul_cancel₀ _ (by norm_num : (100 : ℚ) ≠ 0), round_natCast]
    push_cast
    ring
  · intro env now st orderId userId o u ho howner hnotpaid hnotcancelled hdate hu
    simp [createPaymentIntent, ho, howner, hnotpaid, hnotcancelled, hdate, hu]
  · intro retrieve orders oid uid role o pid snap ho hauth hpid hsnap
    simp [getPaymentStatus, ho, hauth, hpid, hsnap]

/-- C9 witness: the round trip at 19.99 and the status read at a concrete
gateway snapshot of 1999 minor units. -/
theorem amount_round_trip_witness :
    fromMinorUnits (toMinorUnits (((1999 : ℕ) : ℚ) / 100)) = ((1999 : ℕ) : ℚ) / 100 ∧
    getPaymentStatus (fun s => if s = "pi_1" then some snapC else none)
        [cexProcessingOrder] 1 1 "user" =
      StatusResponse.full snapC.piStatus cexProcessingOrder.paymentStatus
        cexProcessingOrder.isPaid (fromMinorUnits snapC.amount) snapC.currency snapC.id :=
  ⟨amount_round_trip.1 1999,
    amount_round_trip.2.2 (fun s => if s = "pi_1" then some snapC else none)
      [cexProcessingOrder] 1 1 "user" cexProcessingOrder "pi_1" snapC (by rfl) (by decide)
      (by rfl) (by rfl)⟩

/-- C10: after a review creation, an approval change or a deletion, every
stored product rating aggregate equals a recomputation over the current
review table, where the recomputation is the arithmetic mean of the
approved ratings rounded to one decimal place together with their count,
and zeroes when no approved review exists. -/
theorem rating_aggregation_invariant :
    (∀ st r, ratingInv st → ratingInv (reviewCreate st r)) ∧
    (∀ st rid b, ratingInv st → ratingInv (reviewSetApproval st rid b)) ∧
    (∀ st rid, ratingInv st → ratingInv (reviewDelete st rid)) ∧
    (∀ rs pid, approvedFor rs pid = [] → calculateProductRating rs pid = ⟨0, 0⟩) ∧
    (∀ rs pid, approvedFor rs pid ≠ [] →
      calculateProductRating rs pid =
        ⟨((round ((((approvedFor rs pid).map (fun r => (r.rating : ℚ))).sum /
              (approvedFor rs pid).length) * 10) : ℤ) : ℚ) / 10,
          (approvedFor rs pid).length⟩) := by
  refine ⟨ratingInv_reviewCreate, ratingInv_reviewSetApproval, ratingInv_reviewDelete, ?_, ?_⟩
  · intro rs pid h
    simp [calculateProductRating, h]
  · intro rs pid h
    have hlen : ¬ (approvedFor rs pid).length = 0 := by
      intro hc
      exact h (List.length_eq_zero.mp hc)
    simp [calculateProductRating, hlen]

/-- C10 witness: creating an approved five star review on a product with no
prior reviews reestablishes the invariant. -/
theorem rating_aggregation_invariant_witness :
    ratingInv (reviewCreate ⟨[], [⟨7, ⟨0, 0⟩⟩]⟩ ⟨1, 1, 7, 1, 5, true⟩) :=
  rating_aggregation_invariant.1 ⟨[], [⟨7, ⟨0, 0⟩⟩]⟩ ⟨1, 1, 7, 1, 5, true⟩ (by decide)

end DairyDrop
